import Mathlib

/-!
Shallow embedding of the pixeldrift-backend media transformation engine
(src/routes/pdf_routes.py and src/routes/image_routes.py), together with
theorems settling the specification claims.

Conventions:
* Python `int` values are modelled as `ℤ`; Python float arithmetic on
  ratios of machine integers is modelled exactly over `ℚ`.
* Python's `int(x)` truncation toward zero is `pyInt`.
* Python exceptions are modelled with `Except`/`Option`: a `none` or an
  `.error` stands for the exception the corresponding Python line raises.
* Pillow image decoding/encoding is external to the repository; an
  uploaded file carries an optional decoded image (`none` = the bytes are
  corrupt, so `Image.open`/`exif_transpose` raises).  Encoding a valid
  in-memory image is modelled as always succeeding.
-/

/-- Python `int(q)` for a real (here: rational) `q`: truncation toward zero. -/
def pyInt (q : ℚ) : ℤ :=
  if q < 0 then ⌈q⌉ else ⌊q⌋

/-- Python `range(a, b)` over (possibly negative) integers, as a list. -/
def pyRange (a b : ℤ) : List ℤ :=
  (List.range (b - a).toNat).map (fun i => a + i)

/-- Python `s.split(sep)` for a single-character separator, over char lists.
`split` always returns at least one (possibly empty) part. -/
def pySplitChar (sep : Char) : List Char → List (List Char)
  | [] => [[]]
  | c :: cs =>
    let rest := pySplitChar sep cs
    if c = sep then [] :: rest
    else
      match rest with
      | r :: rs => (c :: r) :: rs
      | [] => [[c]]

/-- Decimal digit value of a character, when it is a digit. -/
def digitVal (c : Char) : Option ℕ :=
  if c.isDigit then some (c.toNat - '0'.toNat) else none

/-- Parse a nonempty all-digit character list as a natural number. -/
def digitsToNat (l : List Char) : Option ℕ :=
  match l with
  | [] => none
  | _ => l.foldlM (fun acc c => (digitVal c).map (fun d => acc * 10 + d)) 0

/-- Python `int(s)` on a whitespace-free string: optional sign then digits;
anything else raises `ValueError` (modelled as `none`). -/
def pyIntOfChars (l : List Char) : Option ℤ :=
  match l with
  | '-' :: rest => (digitsToNat rest).map (fun n => -(n : ℤ))
  | '+' :: rest => (digitsToNat rest).map (fun n => (n : ℤ))
  | _ => (digitsToNat l).map (fun n => (n : ℤ))

/-!
## Page-range resolution — src/routes/pdf_routes.py, `split_pdf_advanced`

```
ranges = pages.replace(" ", "").split(",")
for r in ranges:
    if "-" in r:
        start, end = map(int, r.split("-"))
        page_indices.extend(list(range(start - 1, end)))
    else:
        page_indices.append(int(r) - 1)
```
A malformed token makes the Python `int`/unpacking raise (modelled `none`).
-/

/-- Resolve one comma-separated token into the zero-based indices it
contributes, exactly as the loop body of `split_pdf_advanced` does. -/
def resolveToken (t : List Char) : Option (List ℤ) :=
  if t.elem '-' then
    match pySplitChar '-' t with
    | [a, b] =>
      match pyIntOfChars a, pyIntOfChars b with
      | some s, some e => some (pyRange (s - 1) e)
      | _, _ => none
    | _ => none
  else
    match pyIntOfChars t with
    | some n => some [n - 1]
    | none => none

/-- The full page-index list of `split_pdf_advanced` for a given `pages`
string and page count: `"all"` expands to every index, otherwise tokens are
resolved left to right and concatenated (`extend`/`append`, no dedup). -/
def pageIndices (pages : String) (pageCount : ℕ) : Option (List ℤ) :=
  if pages = "all" then
    some ((List.range pageCount).map (fun i => (i : ℤ)))
  else
    ((pySplitChar ',' (pages.data.filter (fun c => c ≠ ' '))).mapM
        resolveToken).map List.flatten

instance {ε α : Type} [DecidableEq ε] [DecidableEq α] : DecidableEq (Except ε α) := fun a b =>
  match a, b with
  | .ok x, .ok y => decidable_of_iff (x = y) (by simp)
  | .error x, .error y => decidable_of_iff (x = y) (by simp)
  | .ok _, .error _ => isFalse (by simp)
  | .error _, .ok _ => isFalse (by simp)

inductive SplitErr where
  | malformed : SplitErr
  | outOfRange : ℤ → SplitErr
deriving DecidableEq, Repr

/-- `split_pdf_advanced`: the document is abstracted as the list of its
pages; the output is the list of extracted pages.  The validation loop
returns `Page {idx+1} out of range` at the first offending index. -/
def split_pdf_advanced (doc : List ℕ) (pages : String) : Except SplitErr (List ℕ) :=
  match pageIndices pages doc.length with
  | none => .error .malformed
  | some idxs =>
    match idxs.find? (fun i => decide (i < 0) || decide ((doc.length : ℤ) ≤ i)) with
    | some i => .error (.outOfRange (i + 1))
    | none => .ok (idxs.map (fun i => doc.getD i.toNat 0))

/-!
## Image routes — src/routes/image_routes.py

Shared helpers and the per-route pipelines.  A decoded Pillow image is
abstracted by its size and color mode, which is all the repository's own
logic inspects; the pixel contents are handled by Pillow.
-/

/-- Pillow color modes that occur in the routes' mode tests. -/
inductive PILMode where
  | RGB | RGBA | P | PA | L | LA | CMYK
deriving DecidableEq, Repr

/-- Whether a Pillow mode carries an alpha channel. -/
def hasAlpha : PILMode → Bool
  | .RGBA => true
  | .LA => true
  | .PA => true
  | _ => false

/-- A decoded in-memory image: dimensions and color mode. -/
structure Img where
  w : ℤ
  h : ℤ
  mode : PILMode
deriving DecidableEq, Repr

/-- An uploaded file: name, byte size, and the image its bytes decode to
(`none` when the bytes are corrupt, so `Image.open`/`exif_transpose`
raises).  `ImageOps.exif_transpose` only bakes in the EXIF rotation; for a
successfully decoded image it is modelled as the identity on this
abstraction (it preserves the color mode; a rotation swap of w/h is
already reflected in the stored decoded image). -/
structure UploadFile where
  filename : String
  size : ℕ
  decoded : Option Img
deriving DecidableEq, Repr

/-- Errors of the image routes.  The first five are the routes' own
`HTTPException` validation errors; the last three model Python runtime
exceptions that escape the handler as HTTP 500s: `zeroDivision` for
`ZeroDivisionError`, `valueError` for Pillow's
`ValueError: height and width must be > 0` from `img.resize`, and
`osError` for Pillow's `OSError: cannot write mode … as …` from
`image.save`. -/
inductive ImgErr where
  | tooLarge : ImgErr
  | invalidImage : String → ImgErr
  | unsupportedFormat : ImgErr
  | noFiles : ImgErr
  | invalidMode : ImgErr
  | zeroDivision : ImgErr
  | valueError : ImgErr
  | osError : ImgErr
deriving DecidableEq, Repr

def MAX_IMAGE_SIZE : ℕ := 15 * 1024 * 1024

/-- `re.sub(r"[^a-zA-Z0-9_.-]", "_", name)`. -/
def sanitize_filename (name : String) : String :=
  String.mk (name.data.map (fun c =>
    if c.isAlphanum || c = '_' || c = '.' || c = '-' then c else '_'))

/-- Python `name.rsplit(".", 1)[0]`: everything before the last dot, or the
whole string when there is no dot. -/
def rsplitBase (name : String) : String :=
  let parts := pySplitChar '.' name.data
  if parts.length = 1 then name
  else String.mk (List.intercalate ['.'] parts.dropLast)

/-- Python `s.lower()` (ASCII). -/
def pyLower (s : String) : String :=
  String.mk (s.data.map Char.toLower)

/-!
### convert-image — `load_image`, `prepare_image`, `convert_image`
-/

/-- `load_image`: size check, then decode + EXIF transpose (any decode
failure raises HTTP 400 naming the file). -/
def load_image (f : UploadFile) : Except ImgErr Img :=
  if MAX_IMAGE_SIZE < f.size then .error .tooLarge
  else
    match f.decoded with
    | some img => .ok img
    | none => .error (.invalidImage f.filename)

def SUPPORTED_OUTPUTS : List (String × String) :=
  [("jpeg", "JPEG"), ("jpg", "JPEG"), ("png", "PNG"),
   ("webp", "WEBP"), ("bmp", "BMP"), ("tiff", "TIFF")]

/-- `prepare_image`: flatten RGBA/P to RGB only for alpha-less targets. -/
def prepare_image (img : Img) (out_format : String) : Img :=
  if (img.mode = .RGBA ∨ img.mode = .P) ∧
      (out_format = "jpeg" ∨ out_format = "jpg" ∨ out_format = "bmp") then
    { img with mode := .RGB }
  else img

/-- Python `rename_to or fallback`: `None` and `""` are falsy. -/
def pyOrElse (rename_to : Option String) (fallback : String) : String :=
  match rename_to with
  | some r => if r = "" then fallback else r
  | none => fallback

/-- Archive member name for the `idx`-th item (1-based) of the
convert-image zip branch: `f"{sanitize_filename(base)}_{idx}.{out_format}"`. -/
def convert_entry_name (rename_to : Option String) (out_format : String)
    (idx : ℕ) (f : UploadFile) : String :=
  sanitize_filename (pyOrElse rename_to (rsplitBase f.filename))
    ++ "_" ++ toString idx ++ "." ++ out_format

/-- The zip loop of `convert_image`: files are processed in input order
with 1-based enumeration; the first per-item failure aborts the request
(the partially written zip buffer is local and never returned). -/
def convert_zip_entries (rename_to : Option String) (out_format : String) :
    ℕ → List UploadFile → Except ImgErr (List (String × Img))
  | _, [] => .ok []
  | idx, f :: fs =>
    match load_image f with
    | .error e => .error e
    | .ok img =>
      match convert_zip_entries rename_to out_format (idx + 1) fs with
      | .error e => .error e
      | .ok rest =>
        .ok ((convert_entry_name rename_to out_format idx f,
              prepare_image img out_format) :: rest)

inductive ConvertResult where
  | single : String → Img → ConvertResult
  | zip : List (String × Img) → ConvertResult
deriving DecidableEq, Repr

/-- `convert_image` route: format check, then single-file or zip branch. -/
def convert_image (files : List UploadFile) (out_format : String)
    (rename_to : Option String) : Except ImgErr ConvertResult :=
  let fmt := pyLower out_format
  match (SUPPORTED_OUTPUTS.lookup fmt) with
  | none => .error .unsupportedFormat
  | some _ =>
    match files with
    | [f] =>
      (load_image f).map (fun img =>
        .single
          (sanitize_filename (pyOrElse rename_to (rsplitBase f.filename))
            ++ "." ++ fmt)
          (prepare_image img fmt))
    | fs => (convert_zip_entries rename_to fmt 1 fs).map .zip

/-!
### resize-image — `open_image`, `compute_size`, `resize_image`
-/

/-- `open_image`: size check, decode, EXIF transpose. -/
def open_image (data_size : ℕ) (decoded : Option Img) : Except ImgErr Img :=
  if MAX_IMAGE_SIZE < data_size then .error .tooLarge
  else
    match decoded with
    | some img => .ok img
    | none => .error (.invalidImage "")

/-- `FORMAT_MAP`: key → (Pillow format, mime, extension). -/
def FORMAT_MAP : List (String × String × String × String) :=
  [("jpeg", ("JPEG", "image/jpeg", "jpg")),
   ("png", ("PNG", "image/png", "png")),
   ("webp", ("WEBP", "image/webp", "webp"))]

/-- `compute_size(ow, oh, tw, th, mode)`, line for line:
```
if mode == "stretch": return tw, th
r = ow / oh
if tw / th > r:
    nh = th; nw = int(th * r)
else:
    nw = tw; nh = int(tw / r)
return nw, nh
```
Real divisions are exact over `ℚ`; `int(...)` is `pyInt`.  (When `oh = 0`
or `th = 0` the Python code raises `ZeroDivisionError`; the theorems below
only evaluate this function away from those points.) -/
def compute_size (ow oh tw th : ℤ) (mode : String) : ℤ × ℤ :=
  if mode = "stretch" then (tw, th)
  else
    let r : ℚ := (ow : ℚ) / (oh : ℚ)
    if (tw : ℚ) / (th : ℚ) > r then
      (pyInt ((th : ℚ) * r), th)
    else
      (tw, pyInt ((tw : ℚ) / r))

/-- One iteration of the `resize_image` loop body for one upload:
decode, `compute_size`, resize, optional sharpen (mode- and
size-preserving), pad-mode canvas, JPEG safety conversion, encode,
output member name.

Python exception paths of the loop body, modelled here:
* unless `resize_mode == "stretch"`, `compute_size` evaluates `ow / oh`
  and `tw / th`, so a zero `oh` or `th` raises `ZeroDivisionError`
  (`.zeroDivision`) before any size is produced;
* `img.resize((rw, rh))` raises
  `ValueError: height and width must be > 0` (`.valueError`) when the
  computed target size is zero or negative.
The pad canvas and the final `save` are modelled as succeeding; no
theorem below evaluates them outside positive canvas sizes and
JPEG-compatible modes (the route's own JPEG-safety conversion covers the
RGBA/LA cases). -/
def resize_item (width height : ℤ) (resize_mode bg_color pillow_fmt ext : String)
    (f : UploadFile) : Except ImgErr (String × Img) :=
  match open_image f.size f.decoded with
  | .error e => .error e
  | .ok img =>
    if resize_mode ≠ "stretch" ∧ (img.h = 0 ∨ height = 0) then .error .zeroDivision
    else
    let rwh := compute_size img.w img.h width height resize_mode
    if rwh.1 ≤ 0 ∨ rwh.2 ≤ 0 then .error .valueError
    else
    let resized : Img := { w := rwh.1, h := rwh.2, mode := img.mode }
    let resized : Img :=
      if resize_mode = "pad" then
        if bg_color = "transparent" ∧ pillow_fmt ≠ "JPEG" then
          { w := width, h := height, mode := .RGBA }
        else
          { w := width, h := height, mode := .RGB }
      else resized
    let resized : Img :=
      if pillow_fmt = "JPEG" ∧ (resized.mode = .RGBA ∨ resized.mode = .LA) then
        { resized with mode := .RGB }
      else resized
    .ok (sanitize_filename (rsplitBase f.filename) ++ "-resized." ++ ext, resized)

/-- The `for upload in files` loop of `resize_image`, in input order; the
first per-item exception aborts the request. -/
def resize_results (width height : ℤ) (resize_mode bg_color pillow_fmt ext : String) :
    List UploadFile → Except ImgErr (List (String × Img))
  | [] => .ok []
  | f :: fs =>
    match resize_item width height resize_mode bg_color pillow_fmt ext f with
    | .error e => .error e
    | .ok r =>
      match resize_results width height resize_mode bg_color pillow_fmt ext fs with
      | .error e => .error e
      | .ok rest => .ok (r :: rest)

inductive ResizeResult where
  | single : String → Img → ResizeResult
  | zip : List (String × Img) → ResizeResult
deriving DecidableEq, Repr

/-- `resize_image` route.  Validation, in source order: empty file list,
resize mode, output format.  The requested `width`/`height` are accepted
unchecked (the `Form(...)` fields carry no bounds).  `quality` and
`sharpen` affect only encoded bytes/pixels, not the modelled state. -/
def resize_image (files : List UploadFile) (width height : ℤ)
    (resize_mode bg_color out_format : String) (quality : ℤ) (sharpen : ℚ) :
    Except ImgErr ResizeResult :=
  if files = [] then .error .noFiles
  else if ¬(resize_mode = "fit" ∨ resize_mode = "stretch" ∨ resize_mode = "pad") then
    .error .invalidMode
  else
    match FORMAT_MAP.lookup (pyLower out_format) with
    | none => .error .unsupportedFormat
    | some (pillow_fmt, _, ext) =>
      match resize_results width height resize_mode bg_color pillow_fmt ext files with
      | .error e => .error e
      | .ok results =>
        match results with
        | [r] => .ok (.single r.1 r.2)
        | rs => .ok (.zip rs)

/-!
### compress-image-advanced — `calculate_new_size` and the mode pipeline
-/

/-- First clamp of `calculate_new_size`:
```
if max_width and new_w > max_width:
    ratio = max_width / new_w
    new_w = max_width
    new_h = int(new_h * ratio)
```
Python's `if max_width and ...` treats `None` and `0` as falsy. -/
def clamp_width (max_width : Option ℤ) (p : ℤ × ℤ) : ℤ × ℤ :=
  match max_width with
  | some mw =>
    if mw ≠ 0 ∧ mw < p.1 then
      (mw, pyInt ((p.2 : ℚ) * ((mw : ℚ) / (p.1 : ℚ))))
    else p
  | none => p

/-- Second clamp of `calculate_new_size`:
```
if max_height and new_h > max_height:
    ratio = max_height / new_h
    new_h = max_height
    new_w = int(new_w * ratio)
```
-/
def clamp_height (max_height : Option ℤ) (p : ℤ × ℤ) : ℤ × ℤ :=
  match max_height with
  | some mh =>
    if mh ≠ 0 ∧ mh < p.2 then
      (pyInt ((p.1 : ℚ) * ((mh : ℚ) / (p.2 : ℚ))), mh)
    else p
  | none => p

/-- `calculate_new_size(image, resize_percent, max_width, max_height)`:
percentage scale, then the width clamp, then the height clamp, in source
order. -/
def calculate_new_size (w h : ℤ) (resize_percent : ℤ)
    (max_width max_height : Option ℤ) : ℤ × ℤ :=
  let scale : ℚ := (resize_percent : ℚ) / 100
  clamp_height max_height
    (clamp_width max_width (pyInt ((w : ℚ) * scale), pyInt ((h : ℚ) * scale)))

def SUPPORTED_FORMATS : List String := ["jpeg", "jpg", "png", "webp"]

/-- Python `s.upper()` (ASCII). -/
def pyUpper (s : String) : String :=
  String.mk (s.data.map Char.toUpper)

/-- Lines 94-95 of `compress_image_advanced`, the unconditional
`if image.mode in ("RGBA", "P"): image = image.convert("RGB")` — note it
takes no format argument: the conversion does not depend on the requested
output format. -/
def compress_mode_convert (m : PILMode) : PILMode :=
  if m = .RGBA ∨ m = .P then .RGB else m

/-- Pillow `image.save` mode/format compatibility for the modes and
formats this route can reach, returning the color mode as written:
* JPEG writes `L`, `RGB`, `CMYK`; any other mode raises
  `OSError: cannot write mode … as JPEG`;
* PNG writes `L`, `LA`, `P`, `RGB`, `RGBA` (of our modes); others (`PA`,
  `CMYK`) raise `OSError`;
* WEBP auto-converts every source to `RGBA` when it carries alpha and to
  `RGB` otherwise, so it never raises. -/
def pil_save_mode (m : PILMode) (pil_fmt : String) : Except ImgErr PILMode :=
  if pil_fmt = "JPEG" then
    if m = .L ∨ m = .RGB ∨ m = .CMYK then .ok m else .error .osError
  else if pil_fmt = "PNG" then
    if m = .L ∨ m = .LA ∨ m = .P ∨ m = .RGB ∨ m = .RGBA then .ok m
    else .error .osError
  else if pil_fmt = "WEBP" then
    .ok (if hasAlpha m then .RGBA else .RGB)
  else .error .osError

/-- The color-mode pipeline of `compress_image_advanced`: format check,
EXIF transpose (mode-preserving), the unconditional RGBA/P → RGB
conversion, resize (mode-preserving), then `image.save` with
`pil_format = "JPEG" if format in ("jpeg", "jpg") else format.upper()`.
The returned mode is the mode of the encoded output. -/
def compress_image_advanced_mode (m : PILMode) (format : String) :
    Except ImgErr PILMode :=
  let fmt := pyLower format
  if fmt ∈ SUPPORTED_FORMATS then
    pil_save_mode (compress_mode_convert m)
      (if fmt = "jpeg" ∨ fmt = "jpg" then "JPEG" else pyUpper fmt)
  else
    .error .unsupportedFormat

/-!
## image-to-pdf-advanced — src/routes/pdf_routes.py, lines 142-226

The per-image page construction: resolve page size, orientation swap,
drawable area, contain/cover sizing, floor-centered placement on the full
page.  Python raises `ZeroDivisionError` when a real division's denominator
is zero; each such division is guarded here with an explicit
`.zeroDivision` error at exactly the lines where Python would raise.
-/

inductive PdfErr where
  | zeroDivision : PdfErr
deriving DecidableEq, Repr

def PAGE_SIZES (name : String) : ℤ × ℤ :=
  if name = "A4" then (595, 842)
  else if name = "LETTER" then (612, 792)
  else (0, 0)

/-- Lines 174-203: drawable area, fit, and centering offsets for one image
on a page of known size.  Returns `(new_w, new_h, offset_x, offset_y)`.
`//` of Python on the offsets is `ℤ` division (both round toward −∞ for
the positive divisor 2). -/
def image_to_pdf_layout (iw ih pw ph margin : ℤ) (fit_mode : String) :
    Except PdfErr (ℤ × ℤ × ℤ × ℤ) :=
  let draw_w := pw - margin * 2
  let draw_h := ph - margin * 2
  if ih = 0 then .error .zeroDivision
  else
    let img_ratio : ℚ := (iw : ℚ) / (ih : ℚ)
    if draw_h = 0 then .error .zeroDivision
    else
      let page_ratio : ℚ := (draw_w : ℚ) / (draw_h : ℚ)
      let size : Except PdfErr (ℤ × ℤ) :=
        if fit_mode = "contain" then
          if img_ratio > page_ratio then
            if img_ratio = 0 then .error .zeroDivision
            else .ok (draw_w, pyInt ((draw_w : ℚ) / img_ratio))
          else
            .ok (pyInt ((draw_h : ℚ) * img_ratio), draw_h)
        else
          if img_ratio < page_ratio then
            if img_ratio = 0 then .error .zeroDivision
            else .ok (draw_w, pyInt ((draw_w : ℚ) / img_ratio))
          else
            .ok (pyInt ((draw_h : ℚ) * img_ratio), draw_h)
      size.map (fun (nw, nh) => (nw, nh, (pw - nw) / 2, (ph - nh) / 2))

/-- Lines 165-172 composed with the layout: page size resolution
(`FIT` = the image's own size) and orientation swap, then
`image_to_pdf_layout`.  Returns `(page_w, page_h, new_w, new_h, off_x, off_y)`. -/
def image_to_pdf_page (iw ih : ℤ) (page_size orientation : String)
    (margin : ℤ) (fit_mode : String) :
    Except PdfErr (ℤ × ℤ × ℤ × ℤ × ℤ × ℤ) :=
  let pq := if page_size = "FIT" then (iw, ih) else PAGE_SIZES page_size
  let p := if orientation = "landscape" then (pq.2, pq.1) else pq
  (image_to_pdf_layout iw ih p.1 p.2 margin fit_mode).map
    (fun (nw, nh, ox, oy) => (p.1, p.2, nw, nh, ox, oy))

/-- The request-parameter validation of `image_to_pdf_advanced`, exactly
the FastAPI `Query` constraints: `regex="^(A4|LETTER|FIT)$"`,
`regex="^(portrait|landscape)$"`, `margin ge=0 le=100`,
`regex="^(contain|cover)$"`, `dpi ge=72 le=300`. -/
def image_to_pdf_advanced_validate (page_size orientation : String)
    (margin : ℤ) (fit_mode : String) (dpi : ℤ) : Bool :=
  (page_size = "A4" || page_size = "LETTER" || page_size = "FIT") &&
  (orientation = "portrait" || orientation = "landscape") &&
  (0 ≤ margin && margin ≤ 100) &&
  (fit_mode = "contain" || fit_mode = "cover") &&
  (72 ≤ dpi && dpi ≤ 300)

/-!
# Theorems

General helper lemmas first, then the claim theorems and their witnesses.
-/

theorem pyInt_of_nonneg {q : ℚ} (h : 0 ≤ q) : pyInt q = ⌊q⌋ := by
  simp [pyInt, not_lt.mpr h]

theorem pyInt_nonneg {q : ℚ} (h : 0 ≤ q) : 0 ≤ pyInt q := by
  rw [pyInt_of_nonneg h]
  exact Int.floor_nonneg.mpr h

theorem pyInt_le_of_le {q : ℚ} {c : ℤ} (h0 : 0 ≤ q) (h : q ≤ (c : ℚ)) :
    pyInt q ≤ c := by
  rw [pyInt_of_nonneg h0]
  calc ⌊q⌋ ≤ ⌊(c : ℚ)⌋ := Int.floor_le_floor h
    _ = c := Int.floor_intCast c

theorem le_pyInt_of_le {q : ℚ} {c : ℤ} (h0 : 0 ≤ q) (h : (c : ℚ) ≤ q) :
    c ≤ pyInt q := by
  rw [pyInt_of_nonneg h0]
  exact Int.le_floor.mpr h

theorem pyRange_eq_nil_of_le {a b : ℤ} (h : b ≤ a) : pyRange a b = [] := by
  have : (b - a).toNat = 0 := Int.toNat_of_nonpos (by omega)
  simp [pyRange, this]

/-- Evaluation helper: `compute_size` on an 800×600 source with the
width-0 box of the C5 scenario. -/
theorem compute_size_eval₁ : compute_size 800 600 0 100 "fit" = (0, 0) := by
  norm_num +decide [compute_size, pyInt, Int.floor_eq_iff]

/-- Evaluation helper: `compute_size` on a 400×300 source with the 50×50
box of the C6 scenario. -/
theorem compute_size_eval₂ : compute_size 400 300 50 50 "fit" = (50, 37) := by
  norm_num +decide [compute_size, pyInt, Int.floor_eq_iff]

/-- Helper: when the parse succeeds and every resolved index is in
`[0, pageCount)`, the validation loop finds no offender and the output is
exactly the selected pages, in resolved order. -/
theorem split_pdf_advanced_ok (doc : List ℕ) (pages : String) (l : List ℤ)
    (hparse : pageIndices pages doc.length = some l)
    (hrange : ∀ i ∈ l, 0 ≤ i ∧ i < (doc.length : ℤ)) :
    split_pdf_advanced doc pages = .ok (l.map (fun i => doc.getD i.toNat 0)) := by
  have hfind : l.find? (fun i => decide (i < 0) || decide ((doc.length : ℤ) ≤ i)) = none := by
    rw [List.find?_eq_none]
    intro x hx
    have hx' := hrange x hx
    simp only [Bool.or_eq_true, decide_eq_true_eq, not_or]
    omega
  simp only [split_pdf_advanced, hparse, hfind]

/-- C4: a well-formed page-range expression whose resolved indices are all
in range is resolved token by token, left to right, duplicates preserved,
and the output PDF consists of exactly those pages in that order; on a
10-page document, `"2-5,8"` yields the zero-based indices `[1,2,3,4,7]`
and those pages, `"2,2,2"` keeps the repeats, and `"8,2-3"` keeps the
token order. -/
theorem split_resolves_in_token_order :
    (∀ (doc : List ℕ) (pages : String) (l : List ℤ),
        pageIndices pages doc.length = some l →
        (∀ i ∈ l, 0 ≤ i ∧ i < (doc.length : ℤ)) →
        split_pdf_advanced doc pages = .ok (l.map (fun i => doc.getD i.toNat 0)))
    ∧ pageIndices "2-5,8" 10 = some [1, 2, 3, 4, 7]
    ∧ split_pdf_advanced (List.range 10) "2-5,8" = .ok [1, 2, 3, 4, 7]
    ∧ split_pdf_advanced (List.range 10) "2,2,2" = .ok [1, 1, 1]
    ∧ split_pdf_advanced (List.range 10) "8,2-3" = .ok [7, 1, 2] :=
  ⟨split_pdf_advanced_ok, by decide, by decide, by decide, by decide⟩

/-- Witness for C4: the universally quantified part applied to the
concrete 10-page document and expression `"2-5,8"`. -/
theorem split_resolves_in_token_order_witness :
    split_pdf_advanced (List.range 10) "2-5,8" =
      .ok (([1, 2, 3, 4, 7] : List ℤ).map (fun i => (List.range 10).getD i.toNat 0)) :=
  split_resolves_in_token_order.1 (List.range 10) "2-5,8" [1, 2, 3, 4, 7]
    (by decide) (by decide)

/-- C1 counterexample: the descending range `"3-1"` on a 10-page document
does NOT fail with a `RangeError`; the request succeeds with an empty page
selection. -/
theorem descending_range_not_an_error :
    split_pdf_advanced (List.range 10) "3-1" = .ok [] := by decide

/-- C1 amended: a `start-end` token with `start > end` contributes no page
indices at all — Python's `range(start-1, end)` is empty — so the
descending range is silently resolved to an empty selection (it is not
swapped, and no `RangeError` is raised): `"3-1"` on any document yields a
successful response whose output PDF has zero pages. -/
theorem descending_range_resolves_empty :
    ∀ (s e : ℤ) (doc : List ℕ), e < s →
      pyRange (s - 1) e = [] ∧ split_pdf_advanced doc "3-1" = .ok [] := by
  intro s e doc h
  refine ⟨pyRange_eq_nil_of_le (by omega), ?_⟩
  have hp : pageIndices "3-1" doc.length = some [] := by
    unfold pageIndices
    rw [if_neg (by decide)]
    rfl
  unfold split_pdf_advanced
  rw [hp]
  rfl

/-- Witness for the amended C1 statement at `s = 3`, `e = 1` on a 10-page
document. -/
theorem descending_range_resolves_empty_witness :
    pyRange (3 - 1) 1 = [] ∧ split_pdf_advanced (List.range 10) "3-1" = .ok [] :=
  descending_range_resolves_empty 3 1 (List.range 10) (by decide)

/-- Helper: inversion for a successful `Except.map`. -/
theorem except_map_ok {ε α β : Type} (f : α → β) (x : Except ε α) (b : β)
    (h : x.map f = .ok b) : ∃ a, x = .ok a ∧ f a = b := by
  cases x with
  | error e => simp [Except.map] at h
  | ok a =>
    simp only [Except.map, Except.ok.injEq] at h
    exact ⟨a, rfl, h⟩

/-- Helper: the convert-image zip loop fails as soon as any file in the
batch fails to load. -/
theorem convert_zip_entries_error_of_bad (rename_to : Option String) (fmt : String) :
    ∀ (idx : ℕ) (fs : List UploadFile),
      (∃ f ∈ fs, ∃ e, load_image f = .error e) →
      ∃ e, convert_zip_entries rename_to fmt idx fs = .error e := by
  intro idx fs
  induction fs generalizing idx with
  | nil => rintro ⟨f, hf, _⟩; cases hf
  | cons f fs ih =>
    rintro ⟨g, hg, e, hge⟩
    rcases List.mem_cons.mp hg with rfl | hgs
    · exact ⟨e, by simp [convert_zip_entries, hge]⟩
    · cases hload : load_image f with
      | error e' => exact ⟨e', by simp [convert_zip_entries, hload]⟩
      | ok img =>
        obtain ⟨e'', he''⟩ := ih (idx + 1) ⟨g, hgs, e, hge⟩
        exact ⟨e'', by simp [convert_zip_entries, hload, he'']⟩

/-- Helper: the convert-image zip loop succeeds only if every file in the
batch loads successfully. -/
theorem convert_zip_entries_ok_all (rename_to : Option String) (fmt : String) :
    ∀ (idx : ℕ) (fs : List UploadFile) (l : List (String × Img)),
      convert_zip_entries rename_to fmt idx fs = .ok l →
      ∀ f ∈ fs, ∃ img, load_image f = .ok img := by
  intro idx fs
  induction fs generalizing idx with
  | nil => intro l _ f hf; cases hf
  | cons f fs ih =>
    intro l hok g hg
    cases hload : load_image f with
    | error e => simp [convert_zip_entries, hload] at hok
    | ok img =>
      rcases List.mem_cons.mp hg with rfl | hgs
      · exact ⟨img, hload⟩
      · cases hrest : convert_zip_entries rename_to fmt (idx + 1) fs with
        | error e => simp [convert_zip_entries, hload, hrest] at hok
        | ok rest => exact ih (idx + 1) rest hrest g hgs

/-- Helper: a failed decode makes the resize loop body fail with the same
error. -/
theorem resize_item_error_of_open {w h : ℤ} {rm bg pf ext : String}
    {f : UploadFile} {e : ImgErr} (ho : open_image f.size f.decoded = .error e) :
    resize_item w h rm bg pf ext f = .error e := by
  unfold resize_item
  rw [ho]

/-- Helper: a successful resize loop body implies the decode succeeded. -/
theorem resize_item_ok_open {w h : ℤ} {rm bg pf ext : String}
    {f : UploadFile} {r : String × Img}
    (hr : resize_item w h rm bg pf ext f = .ok r) :
    ∃ img, open_image f.size f.decoded = .ok img := by
  cases ho : open_image f.size f.decoded with
  | error e =>
    rw [resize_item_error_of_open ho] at hr
    cases hr
  | ok img => exact ⟨img, rfl⟩

/-- Helper: the resize loop fails as soon as any item of the batch
fails. -/
theorem resize_results_error_of_bad (w h : ℤ) (rm bg pf ext : String) :
    ∀ fs : List UploadFile,
      (∃ f ∈ fs, ∃ e, resize_item w h rm bg pf ext f = .error e) →
      ∃ e, resize_results w h rm bg pf ext fs = .error e := by
  intro fs
  induction fs with
  | nil => rintro ⟨f, hf, _⟩; cases hf
  | cons f fs ih =>
    rintro ⟨g, hg, e, hge⟩
    rcases List.mem_cons.mp hg with rfl | hgs
    · exact ⟨e, by simp [resize_results, hge]⟩
    · cases hitem : resize_item w h rm bg pf ext f with
      | error e' => exact ⟨e', by simp [resize_results, hitem]⟩
      | ok r =>
        obtain ⟨e'', he''⟩ := ih ⟨g, hgs, e, hge⟩
        exact ⟨e'', by simp [resize_results, hitem, he'']⟩

/-- Helper: the resize loop succeeds only if every item of the batch
succeeds. -/
theorem resize_results_ok_all (w h : ℤ) (rm bg pf ext : String) :
    ∀ (fs : List UploadFile) (l : List (String × Img)),
      resize_results w h rm bg pf ext fs = .ok l →
      ∀ f ∈ fs, ∃ r, resize_item w h rm bg pf ext f = .ok r := by
  intro fs
  induction fs with
  | nil => intro l _ f hf; cases hf
  | cons f fs ih =>
    intro l hok g hg
    cases hitem : resize_item w h rm bg pf ext f with
    | error e => simp [resize_results, hitem] at hok
    | ok r =>
      rcases List.mem_cons.mp hg with rfl | hgs
      · exact ⟨r, hitem⟩
      · cases hrest : resize_results w h rm bg pf ext fs with
        | error e => simp [resize_results, hitem, hrest] at hok
        | ok rest => exact ih rest hrest g hgs

/-- Helper: the single-or-zip dispatch of `resize_image` propagates a
loop error unchanged. -/
theorem resize_match_error (x : Except ImgErr (List (String × Img))) (e : ImgErr)
    (h : x = .error e) :
    (match x with
     | Except.error e' => (Except.error e' : Except ImgErr ResizeResult)
     | Except.ok results =>
       match results with
       | [r] => Except.ok (ResizeResult.single r.1 r.2)
       | rs => Except.ok (ResizeResult.zip rs)) = .error e := by
  subst h
  rfl

/-- Helper: a successful `resize_image` response implies the loop
succeeded. -/
theorem resize_match_ok_inv (x : Except ImgErr (List (String × Img)))
    (res : ResizeResult)
    (h : (match x with
          | Except.error e' => (Except.error e' : Except ImgErr ResizeResult)
          | Except.ok results =>
            match results with
            | [r] => Except.ok (ResizeResult.single r.1 r.2)
            | rs => Except.ok (ResizeResult.zip rs)) = .ok res) :
    ∃ results, x = .ok results := by
  cases x with
  | error e => cases h
  | ok results => exact ⟨results, rfl⟩

/-- C2: both batch routes are atomic.  Conversion: a batch fails as a
whole as soon as any uploaded asset fails its per-item load/transform —
no archive, partial or otherwise, is returned — and an archive is
produced only when every per-item transform succeeded.  Resize: any
request in which some asset fails to decode fails as a whole, and any
successful response (single or archive) implies every asset's per-item
decode succeeded. -/
theorem convert_batch_atomicity :
    (∀ (files : List UploadFile) (out_format : String) (rename_to : Option String),
        (∃ f ∈ files, ∃ e, load_image f = .error e) →
        ∃ e, convert_image files out_format rename_to = .error e)
    ∧ (∀ (files : List UploadFile) (out_format : String) (rename_to : Option String)
        (entries : List (String × Img)),
        convert_image files out_format rename_to = .ok (.zip entries) →
        ∀ f ∈ files, ∃ img, load_image f = .ok img)
    ∧ (∀ (files : List UploadFile) (width height : ℤ)
        (resize_mode bg_color out_format : String) (quality : ℤ) (sharpen : ℚ),
        (∃ f ∈ files, ∃ e, open_image f.size f.decoded = .error e) →
        ∃ e, resize_image files width height resize_mode bg_color out_format
          quality sharpen = .error e)
    ∧ (∀ (files : List UploadFile) (width height : ℤ)
        (resize_mode bg_color out_format : String) (quality : ℤ) (sharpen : ℚ)
        (res : ResizeResult),
        resize_image files width height resize_mode bg_color out_format
          quality sharpen = .ok res →
        ∀ f ∈ files, ∃ img, open_image f.size f.decoded = .ok img) := by
  refine ⟨?_, ?_, ?_, ?_⟩
  · intro files out_format rename_to hbad
    simp only [convert_image]
    cases hfmt : SUPPORTED_OUTPUTS.lookup (pyLower out_format) with
    | none => exact ⟨.unsupportedFormat, rfl⟩
    | some pil =>
      match files, hbad with
      | [f], ⟨g, hg, e, hge⟩ =>
        have : g = f := by simpa using hg
        subst this
        exact ⟨e, by simp [hge, Except.map]⟩
      | [], ⟨g, hg, _⟩ => cases hg
      | f₁ :: f₂ :: fs, hbad =>
        obtain ⟨e, he⟩ :=
          convert_zip_entries_error_of_bad rename_to (pyLower out_format) 1
            (f₁ :: f₂ :: fs) hbad
        exact ⟨e, by simp [he, Except.map]⟩
  · intro files out_format rename_to entries hok
    simp only [convert_image] at hok
    cases hfmt : SUPPORTED_OUTPUTS.lookup (pyLower out_format) with
    | none => rw [hfmt] at hok; cases hok
    | some pil =>
      rw [hfmt] at hok
      match files, hok with
      | [f], hok =>
        intro g hg
        have hgf : g = f := by simpa using hg
        subst hgf
        obtain ⟨img, himg, -⟩ := except_map_ok _ _ _ hok
        exact ⟨img, himg⟩
      | [], hok => intro g hg; cases hg
      | f₁ :: f₂ :: fs, hok =>
        obtain ⟨l, hl, -⟩ := except_map_ok _ _ _ hok
        exact convert_zip_entries_ok_all rename_to (pyLower out_format) 1 _ l hl
  · intro files width height rm bg of q s hbad
    obtain ⟨g, hg, e, hge⟩ := hbad
    simp only [resize_image]
    have hne : files ≠ [] := by rintro rfl; cases hg
    rw [if_neg hne]
    by_cases hmode : ¬(rm = "fit" ∨ rm = "stretch" ∨ rm = "pad")
    · rw [if_pos hmode]
      exact ⟨.invalidMode, rfl⟩
    · rw [if_neg hmode]
      cases hlk : FORMAT_MAP.lookup (pyLower of) with
      | none => exact ⟨.unsupportedFormat, rfl⟩
      | some triple =>
        obtain ⟨pf, mime, ext⟩ := triple
        obtain ⟨e', he'⟩ := resize_results_error_of_bad width height rm bg pf ext files
          ⟨g, hg, e, resize_item_error_of_open hge⟩
        exact ⟨e', resize_match_error _ e' he'⟩
  · intro files width height rm bg of q s res hok g hg
    simp only [resize_image] at hok
    have hne : files ≠ [] := by rintro rfl; cases hg
    rw [if_neg hne] at hok
    by_cases hmode : ¬(rm = "fit" ∨ rm = "stretch" ∨ rm = "pad")
    · rw [if_pos hmode] at hok
      cases hok
    · rw [if_neg hmode] at hok
      cases hlk : FORMAT_MAP.lookup (pyLower of) with
      | none => rw [hlk] at hok; cases hok
      | some triple =>
        rw [hlk] at hok
        obtain ⟨pf, mime, ext⟩ := triple
        obtain ⟨results, hres⟩ := resize_match_ok_inv _ res hok
        obtain ⟨r, hr⟩ := resize_results_ok_all width height rm bg pf ext files results hres g hg
        exact resize_item_ok_open hr

/-- Witness for C2: a two-file batch in which the second asset is corrupt
fails as a whole, through both batch routes. -/
theorem convert_batch_atomicity_witness :
    (∃ e, convert_image
        [⟨"good.png", 100, some ⟨800, 600, .RGB⟩⟩, ⟨"bad.png", 100, none⟩]
        "png" none = .error e) ∧
    (∃ e, resize_image
        [⟨"good.png", 100, some ⟨800, 600, .RGB⟩⟩, ⟨"bad.png", 100, none⟩]
        50 50 "fit" "#ffffff" "jpeg" 85 1 = .error e) :=
  ⟨convert_batch_atomicity.1 _ "png" none
      ⟨⟨"bad.png", 100, none⟩, by decide, .invalidImage "bad.png", by decide⟩,
   convert_batch_atomicity.2.2.1 _ 50 50 "fit" "#ffffff" "jpeg" 85 1
      ⟨⟨"bad.png", 100, none⟩, by decide, .invalidImage "", by decide⟩⟩

/-- Helper: in non-stretch (`fit`) mode, `compute_size` never exceeds the
requested box. -/
theorem compute_size_fit_le (ow oh tw th : ℤ)
    (how : 0 < ow) (hoh : 0 < oh) (htw : 0 < tw) (hth : 0 < th) :
    (compute_size ow oh tw th "fit").1 ≤ tw ∧ (compute_size ow oh tw th "fit").2 ≤ th := by
  have how' : (0 : ℚ) < ow := by exact_mod_cast how
  have hoh' : (0 : ℚ) < oh := by exact_mod_cast hoh
  have htw' : (0 : ℚ) < tw := by exact_mod_cast htw
  have hth' : (0 : ℚ) < th := by exact_mod_cast hth
  have hr : (0 : ℚ) < (ow : ℚ) / (oh : ℚ) := div_pos how' hoh'
  simp only [compute_size]
  rw [if_neg (by decide : ¬("fit" = "stretch"))]
  by_cases hcmp : (ow : ℚ) / (oh : ℚ) < (tw : ℚ) / (th : ℚ)
  · rw [if_pos hcmp]
    refine ⟨?_, le_refl th⟩
    apply pyInt_le_of_le (by positivity)
    have : (ow : ℚ) / (oh : ℚ) * th < tw := (lt_div_iff hth').mp hcmp
    rw [mul_comm]
    exact this.le
  · rw [if_neg hcmp]
    refine ⟨le_refl tw, ?_⟩
    apply pyInt_le_of_le (by positivity)
    rw [div_le_iff hr]
    have : (tw : ℚ) ≤ (ow : ℚ) / (oh : ℚ) * th := (div_le_iff hth').mp (not_lt.mp hcmp)
    rw [mul_comm] at this
    exact this

/-- Helper: contain-mode layout succeeds on positive inputs, places the
image with floor-centering offsets relative to the full page, and never
exceeds the drawable box. -/
theorem image_to_pdf_layout_contain (iw ih pw ph m : ℤ)
    (hiw : 0 < iw) (hih : 0 < ih) (hdw : 0 < pw - m * 2) (hdh : 0 < ph - m * 2) :
    ∃ nw nh, image_to_pdf_layout iw ih pw ph m "contain" =
        .ok (nw, nh, (pw - nw) / 2, (ph - nh) / 2) ∧
      nw ≤ pw - m * 2 ∧ nh ≤ ph - m * 2 := by
  have hiw' : (0 : ℚ) < iw := by exact_mod_cast hiw
  have hih' : (0 : ℚ) < ih := by exact_mod_cast hih
  have hdw' : (0 : ℚ) < ((pw - m * 2 : ℤ) : ℚ) := by exact_mod_cast hdw
  have hdh' : (0 : ℚ) < ((ph - m * 2 : ℤ) : ℚ) := by exact_mod_cast hdh
  have hir : (0 : ℚ) < (iw : ℚ) / (ih : ℚ) := div_pos hiw' hih'
  simp only [image_to_pdf_layout]
  rw [if_neg (by omega : ¬ih = 0), if_neg (by omega : ¬ph - m * 2 = 0),
    if_pos (by trivial)]
  by_cases hcmp :
      ((pw - m * 2 : ℤ) : ℚ) / ((ph - m * 2 : ℤ) : ℚ) < (iw : ℚ) / (ih : ℚ)
  · rw [if_pos hcmp, if_neg (ne_of_gt hir)]
    refine ⟨pw - m * 2, pyInt (((pw - m * 2 : ℤ) : ℚ) / ((iw : ℚ) / (ih : ℚ))), rfl,
      le_refl _, ?_⟩
    apply pyInt_le_of_le (by positivity)
    rw [div_le_iff hir]
    have := (div_lt_iff hdh').mp hcmp
    exact this.le.trans_eq (mul_comm _ _)
  · rw [if_neg hcmp]
    refine ⟨pyInt (((ph - m * 2 : ℤ) : ℚ) * ((iw : ℚ) / (ih : ℚ))), ph - m * 2, rfl,
      ?_, le_refl _⟩
    apply pyInt_le_of_le (by positivity)
    have := (le_div_iff hdh').mp (not_lt.mp hcmp)
    exact (mul_comm ((ph - m * 2 : ℤ) : ℚ) ((iw : ℚ) / (ih : ℚ))).trans_le this

/-- Helper: cover-mode layout succeeds on positive inputs and never falls
short of the drawable box. -/
theorem image_to_pdf_layout_cover (iw ih pw ph m : ℤ)
    (hiw : 0 < iw) (hih : 0 < ih) (hdw : 0 < pw - m * 2) (hdh : 0 < ph - m * 2) :
    ∃ nw nh, image_to_pdf_layout iw ih pw ph m "cover" =
        .ok (nw, nh, (pw - nw) / 2, (ph - nh) / 2) ∧
      pw - m * 2 ≤ nw ∧ ph - m * 2 ≤ nh := by
  have hiw' : (0 : ℚ) < iw := by exact_mod_cast hiw
  have hih' : (0 : ℚ) < ih := by exact_mod_cast hih
  have hdw' : (0 : ℚ) < ((pw - m * 2 : ℤ) : ℚ) := by exact_mod_cast hdw
  have hdh' : (0 : ℚ) < ((ph - m * 2 : ℤ) : ℚ) := by exact_mod_cast hdh
  have hir : (0 : ℚ) < (iw : ℚ) / (ih : ℚ) := div_pos hiw' hih'
  simp only [image_to_pdf_layout]
  rw [if_neg (by omega : ¬ih = 0), if_neg (by omega : ¬ph - m * 2 = 0),
    if_neg (by decide : ¬("cover" = "contain"))]
  by_cases hcmp :
      (iw : ℚ) / (ih : ℚ) < ((pw - m * 2 : ℤ) : ℚ) / ((ph - m * 2 : ℤ) : ℚ)
  · rw [if_pos hcmp, if_neg (ne_of_gt hir)]
    refine ⟨pw - m * 2, pyInt (((pw - m * 2 : ℤ) : ℚ) / ((iw : ℚ) / (ih : ℚ))), rfl,
      le_refl _, ?_⟩
    apply le_pyInt_of_le (by positivity)
    rw [le_div_iff hir]
    have := (lt_div_iff hdh').mp hcmp
    exact (mul_comm ((ph - m * 2 : ℤ) : ℚ) ((iw : ℚ) / (ih : ℚ))).trans_le this.le
  · rw [if_neg hcmp]
    refine ⟨pyInt (((ph - m * 2 : ℤ) : ℚ) * ((iw : ℚ) / (ih : ℚ))), ph - m * 2, rfl,
      ?_, le_refl _⟩
    apply le_pyInt_of_le (by positivity)
    have := (div_le_iff hdh').mp (not_lt.mp hcmp)
    exact this.trans_eq (mul_comm _ _)

/-- C3: for positive source sizes and positive boxes, fit/contain sizing
never exceeds the box (`compute_size` in the resize route and the contain
branch of `image_to_pdf_advanced`, whose box is the drawable area), and
cover sizing never falls short of the box. -/
theorem sizing_respects_boxes :
    (∀ ow oh tw th : ℤ, 0 < ow → 0 < oh → 0 < tw → 0 < th →
        (compute_size ow oh tw th "fit").1 ≤ tw ∧
        (compute_size ow oh tw th "fit").2 ≤ th)
    ∧ (∀ iw ih pw ph m : ℤ, 0 < iw → 0 < ih →
        0 < pw - m * 2 → 0 < ph - m * 2 →
        ∃ nw nh ox oy, image_to_pdf_layout iw ih pw ph m "contain" = .ok (nw, nh, ox, oy) ∧
          nw ≤ pw - m * 2 ∧ nh ≤ ph - m * 2)
    ∧ (∀ iw ih pw ph m : ℤ, 0 < iw → 0 < ih →
        0 < pw - m * 2 → 0 < ph - m * 2 →
        ∃ nw nh ox oy, image_to_pdf_layout iw ih pw ph m "cover" = .ok (nw, nh, ox, oy) ∧
          pw - m * 2 ≤ nw ∧ ph - m * 2 ≤ nh) := by
  refine ⟨compute_size_fit_le, ?_, ?_⟩
  · intro iw ih pw ph m hiw hih hdw hdh
    obtain ⟨nw, nh, hok, h₁, h₂⟩ := image_to_pdf_layout_contain iw ih pw ph m hiw hih hdw hdh
    exact ⟨nw, nh, _, _, hok, h₁, h₂⟩
  · intro iw ih pw ph m hiw hih hdw hdh
    obtain ⟨nw, nh, hok, h₁, h₂⟩ := image_to_pdf_layout_cover iw ih pw ph m hiw hih hdw hdh
    exact ⟨nw, nh, _, _, hok, h₁, h₂⟩

/-- Witness for C3: a 1000×500 source into a 300×200 box in fit mode, and
the same image onto a 300×200 page with margin 10 in contain and cover
modes. -/
theorem sizing_respects_boxes_witness :
    ((compute_size 1000 500 300 200 "fit").1 ≤ 300 ∧
      (compute_size 1000 500 300 200 "fit").2 ≤ 200) ∧
    (∃ nw nh ox oy, image_to_pdf_layout 1000 500 300 200 10 "contain" =
        .ok (nw, nh, ox, oy) ∧ nw ≤ 300 - 10 * 2 ∧ nh ≤ 200 - 10 * 2) ∧
    (∃ nw nh ox oy, image_to_pdf_layout 1000 500 300 200 10 "cover" =
        .ok (nw, nh, ox, oy) ∧ 300 - 10 * 2 ≤ nw ∧ 200 - 10 * 2 ≤ nh) :=
  ⟨sizing_respects_boxes.1 1000 500 300 200 (by decide) (by decide) (by decide) (by decide),
   sizing_respects_boxes.2.1 1000 500 300 200 10 (by decide) (by decide) (by decide) (by decide),
   sizing_respects_boxes.2.2 1000 500 300 200 10 (by decide) (by decide) (by decide) (by decide)⟩

/-- C7: the scaled image is centered within the full page — offsets are
exactly `((pageW − newW) // 2, (pageH − newH) // 2)` with integer floor
division, so the two margins on each axis differ by at most one pixel —
and a 100×200 source on a 300×300 page with margin 0 in contain mode is
scaled to 150×300 and placed at offset (75, 0). -/
theorem layout_centers_on_full_page :
    (∀ iw ih pw ph m : ℤ, 0 < iw → 0 < ih → 0 < pw - m * 2 → 0 < ph - m * 2 →
        ∃ nw nh, image_to_pdf_layout iw ih pw ph m "contain" =
            .ok (nw, nh, (pw - nw) / 2, (ph - nh) / 2) ∧
          0 ≤ (pw - nw) - 2 * ((pw - nw) / 2) ∧ (pw - nw) - 2 * ((pw - nw) / 2) ≤ 1 ∧
          0 ≤ (ph - nh) - 2 * ((ph - nh) / 2) ∧ (ph - nh) - 2 * ((ph - nh) / 2) ≤ 1)
    ∧ image_to_pdf_layout 100 200 300 300 0 "contain" = .ok (150, 300, 75, 0) := by
  constructor
  · intro iw ih pw ph m hiw hih hdw hdh
    obtain ⟨nw, nh, hok, -, -⟩ :=
      image_to_pdf_layout_contain iw ih pw ph m hiw hih hdw hdh
    exact ⟨nw, nh, hok, by omega, by omega, by omega, by omega⟩
  · norm_num +decide [image_to_pdf_layout, pyInt, Int.floor_eq_iff, Except.map]

/-- Witness for C7: the universal part applied to the 100×200 source on a
300×300 page with margin 0. -/
theorem layout_centers_on_full_page_witness :
    ∃ nw nh, image_to_pdf_layout 100 200 300 300 0 "contain" =
        .ok (nw, nh, (300 - nw) / 2, (300 - nh) / 2) ∧
      0 ≤ (300 - nw) - 2 * ((300 - nw) / 2) ∧ (300 - nw) - 2 * ((300 - nw) / 2) ≤ 1 ∧
      0 ≤ (300 - nh) - 2 * ((300 - nh) / 2) ∧ (300 - nh) - 2 * ((300 - nh) / 2) ≤ 1 :=
  layout_centers_on_full_page.1 100 200 300 300 0
    (by decide) (by decide) (by decide) (by decide)

/-- C8 (code bug): `page_size=FIT` with a 100×100 source and the fully
validated margin 50 gives a 0×0 drawable area; the code performs no
validation of the drawable area and instead hits the `ZeroDivisionError`
of `page_ratio = draw_w / draw_h` (an unhandled HTTP 500), not a
validation error. -/
theorem fit_margin_zero_drawable_not_validated :
    image_to_pdf_advanced_validate "FIT" "portrait" 50 "contain" 72 = true ∧
    image_to_pdf_page 100 100 "FIT" "portrait" 50 "contain" = .error .zeroDivision := by
  refine ⟨by decide, ?_⟩
  norm_num +decide [image_to_pdf_page, image_to_pdf_layout]

/-- C9 counterexample: an `LA` (grayscale+alpha) source is not converted —
only `RGBA` and `P` are — so the PNG output of the compression route still
carries an alpha channel. -/
theorem compress_la_output_keeps_alpha :
    compress_image_advanced_mode .LA "png" = .ok .LA ∧ hasAlpha .LA = true := by
  decide

/-- C9 amended: the compression route unconditionally converts `RGBA` and
`P` sources to `RGB` — the conversion step takes no format argument and
the encoded output for those sources is `RGB` under every supported
format, discarding their transparency even when the format (PNG, WEBP)
supports alpha.  Any other mode is NOT converted: an `LA` source keeps
its alpha channel in the output (PNG writes it as `LA`, see the
counterexample; WEBP auto-converts it to `RGBA`), while saving `LA` as
JPEG makes Pillow raise `OSError` (an unhandled HTTP 500). -/
theorem compress_mode_flattening :
    (∀ format : String, pyLower format ∈ SUPPORTED_FORMATS →
        compress_image_advanced_mode .RGBA format = .ok .RGB ∧
        compress_image_advanced_mode .P format = .ok .RGB)
    ∧ (∀ m : PILMode, m ≠ .RGBA → m ≠ .P → compress_mode_convert m = m)
    ∧ compress_image_advanced_mode .LA "webp" = .ok .RGBA
    ∧ compress_image_advanced_mode .LA "jpeg" = .error .osError
    ∧ hasAlpha .RGBA = true := by
  refine ⟨?_, ?_, by decide, by decide, by decide⟩
  · intro format hfmt
    have h4 : pyLower format = "jpeg" ∨ pyLower format = "jpg" ∨
        pyLower format = "png" ∨ pyLower format = "webp" := by
      simpa [SUPPORTED_FORMATS] using hfmt
    rcases h4 with h | h | h | h <;>
      exact ⟨by simp only [compress_image_advanced_mode, h]; decide,
             by simp only [compress_image_advanced_mode, h]; decide⟩
  · intro m hm1 hm2
    simp [compress_mode_convert, hm1, hm2]

/-- Witness for the amended C9 statement: `png` with `RGBA` and `P`
sources (flattened), and the conversion step leaving `LA` untouched. -/
theorem compress_mode_flattening_witness :
    (compress_image_advanced_mode .RGBA "png" = .ok .RGB ∧
      compress_image_advanced_mode .P "png" = .ok .RGB) ∧
    compress_mode_convert .LA = .LA :=
  ⟨compress_mode_flattening.1 "png" (by decide),
   compress_mode_flattening.2.1 .LA (by decide) (by decide)⟩

/-- Helper: multiplying a nonnegative integer by a ratio `b/c` with
`0 < b < c` and truncating cannot exceed the original value. -/
theorem pyInt_mul_ratio_le {a b c : ℤ} (ha : 0 ≤ a) (hb : 0 < b) (hbc : b < c) :
    pyInt ((a : ℚ) * ((b : ℚ) / (c : ℚ))) ≤ a := by
  have hc' : (0 : ℚ) < c := by exact_mod_cast hb.trans hbc
  have hb' : (0 : ℚ) ≤ b := by exact_mod_cast hb.le
  have ha' : (0 : ℚ) ≤ a := by exact_mod_cast ha
  have hratio : (b : ℚ) / (c : ℚ) ≤ 1 := (div_le_one hc').mpr (by exact_mod_cast hbc.le)
  apply pyInt_le_of_le (by positivity)
  exact mul_le_of_le_one_right ha' hratio

/-- Helper: both components stay nonnegative through the width clamp. -/
theorem clamp_width_nonneg (mw : Option ℤ) (p : ℤ × ℤ)
    (h1 : 0 ≤ p.1) (h2 : 0 ≤ p.2) (hmw : ∀ x, mw = some x → 0 < x) :
    0 ≤ (clamp_width mw p).1 ∧ 0 ≤ (clamp_width mw p).2 := by
  cases mw with
  | none => exact ⟨h1, h2⟩
  | some x =>
    have hx := hmw x rfl
    simp only [clamp_width]
    split
    · refine ⟨hx.le, pyInt_nonneg ?_⟩
      have : (0 : ℚ) ≤ p.2 := by exact_mod_cast h2
      have hx' : (0 : ℚ) ≤ x := by exact_mod_cast hx.le
      have hp1 : (0 : ℚ) ≤ p.1 := by exact_mod_cast h1
      positivity
    · exact ⟨h1, h2⟩

/-- Helper: after the width clamp, the width respects the cap. -/
theorem clamp_width_fst_le (mw : Option ℤ) (p : ℤ × ℤ) (x : ℤ)
    (hx : mw = some x) (h0 : 0 < x) : (clamp_width mw p).1 ≤ x := by
  subst hx
  simp only [clamp_width]
  split
  · exact le_refl x
  · rename_i hcond
    push_neg at hcond
    exact hcond (by omega)

/-- Helper: after the height clamp, the height respects the cap. -/
theorem clamp_height_snd_le (mh : Option ℤ) (p : ℤ × ℤ) (y : ℤ)
    (hy : mh = some y) (h0 : 0 < y) : (clamp_height mh p).2 ≤ y := by
  subst hy
  simp only [clamp_height]
  split
  · exact le_refl y
  · rename_i hcond
    push_neg at hcond
    exact hcond (by omega)

/-- Helper: the height clamp never increases the width: it multiplies the
width by a ratio `< 1` and truncates toward zero. -/
theorem clamp_height_fst_le (mh : Option ℤ) (p : ℤ × ℤ)
    (h1 : 0 ≤ p.1) (hmh : ∀ y, mh = some y → 0 < y) :
    (clamp_height mh p).1 ≤ p.1 := by
  cases mh with
  | none => exact le_refl _
  | some y =>
    have hy := hmh y rfl
    simp only [clamp_height]
    split
    · rename_i hcond
      exact pyInt_mul_ratio_le h1 hy hcond.2
    · exact le_refl _

/-- C10: for nonnegative sources and percentages and positive optional
caps, `calculate_new_size` respects the width cap and the height cap
simultaneously: the height clamp runs after the width clamp but multiplies
the width by a ratio `≤ 1` and truncates toward zero, so it cannot push
the width back above `max_width`. -/
theorem calculate_new_size_respects_caps :
    ∀ (w h pct : ℤ) (mw mh : Option ℤ),
      0 ≤ w → 0 ≤ h → 0 ≤ pct →
      (∀ x, mw = some x → 0 < x) → (∀ y, mh = some y → 0 < y) →
      (∀ x, mw = some x → (calculate_new_size w h pct mw mh).1 ≤ x) ∧
      (∀ y, mh = some y → (calculate_new_size w h pct mw mh).2 ≤ y) := by
  intro w h pct mw mh hw hh hpct hmw hmh
  have hpct' : (0 : ℚ) ≤ (pct : ℚ) / 100 :=
    div_nonneg (by exact_mod_cast hpct) (by norm_num)
  have h0w : (0 : ℚ) ≤ (w : ℚ) * ((pct : ℚ) / 100) :=
    mul_nonneg (by exact_mod_cast hw) hpct'
  have h0h : (0 : ℚ) ≤ (h : ℚ) * ((pct : ℚ) / 100) :=
    mul_nonneg (by exact_mod_cast hh) hpct'
  have hcalc : calculate_new_size w h pct mw mh =
      clamp_height mh (clamp_width mw
        (pyInt ((w : ℚ) * ((pct : ℚ) / 100)), pyInt ((h : ℚ) * ((pct : ℚ) / 100)))) := rfl
  have hq := clamp_width_nonneg mw
    (pyInt ((w : ℚ) * ((pct : ℚ) / 100)), pyInt ((h : ℚ) * ((pct : ℚ) / 100)))
    (pyInt_nonneg h0w) (pyInt_nonneg h0h) hmw
  constructor
  · intro x hx
    rw [hcalc]
    exact (clamp_height_fst_le mh _ hq.1 hmh).trans
      (clamp_width_fst_le mw _ x hx (hmw x hx))
  · intro y hy
    rw [hcalc]
    exact clamp_height_snd_le mh _ y hy (hmh y hy)

/-- Witness for C10: a 2000×1000 source at 100% with caps 500 and 300. -/
theorem calculate_new_size_respects_caps_witness :
    (calculate_new_size 2000 1000 100 (some 500) (some 300)).1 ≤ 500 ∧
    (calculate_new_size 2000 1000 100 (some 500) (some 300)).2 ≤ 300 := by
  have hmain := calculate_new_size_respects_caps 2000 1000 100 (some 500) (some 300)
    (by decide) (by decide) (by decide)
    (by intro x hx; injection hx with hx; omega)
    (by intro y hy; injection hy with hy; omega)
  exact ⟨hmain.1 500 rfl, hmain.2 300 rfl⟩

/-- C5 counterexample: a resize request with target width 0 (and height
100) on a valid 800×600 upload is NOT rejected with a validation error:
it passes the route's checks, `compute_size` runs and returns a 0×0
target, and the request then dies inside Pillow's `img.resize`
(`ValueError: height and width must be > 0`, an unhandled HTTP 500) —
the error arises after the sizing arithmetic, not as an explicit
rejection of the configuration. -/
theorem resize_zero_width_not_validated :
    resize_image [⟨"photo.jpg", 100, some ⟨800, 600, .RGB⟩⟩] 0 100
        "fit" "#ffffff" "jpeg" 85 1 = .error .valueError ∧
    compute_size 800 600 0 100 "fit" = (0, 0) := by
  refine ⟨?_, compute_size_eval₁⟩
  norm_num +decide [resize_image, resize_results, resize_item, open_image,
    compute_size_eval₁, MAX_IMAGE_SIZE, FORMAT_MAP, pyLower]

/-- C5 amended: the resize route never validates the requested
dimensions.  For EVERY integer width and height (zero and negatives
included) a single-file fit-mode request is exactly the per-item
pipeline's outcome — the route-level checks (file list, mode, format) do
not inspect the dimensions — and the failures that do occur are Python
runtime errors downstream of the sizing arithmetic, not validation
errors: height 0 raises `ZeroDivisionError` at the `tw / th` division
inside `compute_size` (see the second conjunct), and width 0 raises
Pillow's `ValueError` in `img.resize` (see the counterexample). -/
theorem resize_dimensions_unvalidated :
    (∀ (width height : ℤ) (f : UploadFile),
        resize_image [f] width height "fit" "#ffffff" "jpeg" 85 1 =
          Except.map (fun r => ResizeResult.single r.1 r.2)
            (resize_item width height "fit" "#ffffff" "JPEG" "jpg" f))
    ∧ resize_image [⟨"photo.jpg", 100, some ⟨800, 600, .RGB⟩⟩] 50 0
        "fit" "#ffffff" "jpeg" 85 1 = .error .zeroDivision := by
  constructor
  · intro width height f
    unfold resize_image
    rw [if_neg (by simp : ¬([f] = ([] : List UploadFile)))]
    rw [if_neg (by decide : ¬¬("fit" = "fit" ∨ "fit" = "stretch" ∨ "fit" = "pad"))]
    have hlk : FORMAT_MAP.lookup (pyLower "jpeg") =
        some ("JPEG", "image/jpeg", "jpg") := by decide
    rw [hlk]
    show (match resize_results width height "fit" "#ffffff" "JPEG" "jpg" [f] with
      | Except.error e => (Except.error e : Except ImgErr ResizeResult)
      | Except.ok results =>
        match results with
        | [r] => Except.ok (ResizeResult.single r.1 r.2)
        | rs => Except.ok (ResizeResult.zip rs)) =
      Except.map (fun r => ResizeResult.single r.1 r.2)
        (resize_item width height "fit" "#ffffff" "JPEG" "jpg" f)
    cases hitem : resize_item width height "fit" "#ffffff" "JPEG" "jpg" f with
    | error e =>
      have hres : resize_results width height "fit" "#ffffff" "JPEG" "jpg" [f] =
          .error e := by
        simp only [resize_results, hitem]
      rw [hres]
      rfl
    | ok r =>
      have hres : resize_results width height "fit" "#ffffff" "JPEG" "jpg" [f] =
          .ok [r] := by
        simp only [resize_results, hitem]
      rw [hres]
      rfl
  · norm_num +decide [resize_image, resize_results, resize_item, open_image,
      MAX_IMAGE_SIZE, FORMAT_MAP, pyLower]


/-- Helper: the member names of a successful convert-image zip are exactly
`convert_entry_name` applied positionally with consecutive 1-based
indices, in input order. -/
theorem convert_zip_entries_names (rename_to : Option String) (fmt : String) :
    ∀ (idx : ℕ) (fs : List UploadFile) (l : List (String × Img)),
      convert_zip_entries rename_to fmt idx fs = .ok l →
      l.map Prod.fst =
        List.zipWith (fun i f => convert_entry_name rename_to fmt i f)
          (List.range' idx fs.length) fs := by
  intro idx fs
  induction fs generalizing idx with
  | nil =>
    intro l hl
    simp only [convert_zip_entries] at hl
    injection hl with h
    subst h
    simp
  | cons f fs ih =>
    intro l hl
    cases hload : load_image f with
    | error e => simp [convert_zip_entries, hload] at hl
    | ok img =>
      cases hrest : convert_zip_entries rename_to fmt (idx + 1) fs with
      | error e => simp [convert_zip_entries, hload, hrest] at hl
      | ok rest =>
        simp only [convert_zip_entries, hload, hrest] at hl
        injection hl with h
        subst h
        simp [List.range', ih (idx + 1) rest hrest]

/-- C6 counterexample: in the resize route, two uploads with the same base
name produce two archive members under the SAME name
(`photo-resized.jpg` twice) — no sequence number is appended and the
duplicate is not avoided. -/
theorem resize_duplicate_names_collide :
    resize_image
        [⟨"photo.jpg", 100, some ⟨400, 300, .RGB⟩⟩,
         ⟨"photo.jpg", 100, some ⟨400, 300, .RGB⟩⟩] 50 50
        "fit" "#ffffff" "jpeg" 85 1 =
      .ok (.zip [("photo-resized.jpg", ⟨50, 37, .RGB⟩),
                 ("photo-resized.jpg", ⟨50, 37, .RGB⟩)]) ∧
    ¬ ([("photo-resized.jpg", (⟨50, 37, .RGB⟩ : Img)),
        ("photo-resized.jpg", ⟨50, 37, .RGB⟩)].map Prod.fst).Nodup := by
  constructor
  · norm_num +decide [resize_image, resize_results, resize_item, open_image,
      compute_size_eval₂, MAX_IMAGE_SIZE, FORMAT_MAP, pyLower, sanitize_filename,
      rsplitBase, pySplitChar]
  · decide

/-- C6 amended: the two archive-producing routes differ.  `convert_image`
appends the 1-based position to EVERY member name (not only where needed):
the members of a successful zip are `sanitize(base)_i.fmt` for
`i = 1, 2, ...` in input order, which keeps them distinct (three inputs
where two share the base name `name` yield `name_1.webp`, `name_2.webp`,
`other_3.webp`).  `resize_image` appends no disambiguator, so two inputs
with one base name collide (see the counterexample). -/
theorem convert_archive_member_names :
    (∀ (files : List UploadFile) (out_format : String) (rename_to : Option String)
        (entries : List (String × Img)),
        convert_image files out_format rename_to = .ok (.zip entries) →
        entries.map Prod.fst =
          List.zipWith (fun i f => convert_entry_name rename_to (pyLower out_format) i f)
            (List.range' 1 files.length) files)
    ∧ convert_image
        [⟨"name.png", 10, some ⟨10, 10, .RGB⟩⟩, ⟨"name.jpg", 10, some ⟨10, 10, .RGB⟩⟩,
         ⟨"other.png", 10, some ⟨10, 10, .RGB⟩⟩] "webp" none =
        .ok (.zip [("name_1.webp", ⟨10, 10, .RGB⟩), ("name_2.webp", ⟨10, 10, .RGB⟩),
                   ("other_3.webp", ⟨10, 10, .RGB⟩)])
    ∧ (["name_1.webp", "name_2.webp", "other_3.webp"] : List String).Nodup := by
  refine ⟨?_, by decide, by decide⟩
  intro files out_format rename_to entries hok
  simp only [convert_image] at hok
  cases hfmt : SUPPORTED_OUTPUTS.lookup (pyLower out_format) with
  | none => rw [hfmt] at hok; cases hok
  | some pil =>
    rw [hfmt] at hok
    match files, hok with
    | [f], hok =>
      obtain ⟨img, -, habs⟩ := except_map_ok _ _ _ hok
      cases habs
    | [], hok =>
      obtain ⟨l, hl, habs⟩ := except_map_ok _ _ _ hok
      injection hl with hl'
      subst hl'
      injection habs with habs'
      subst habs'
      simp
    | f₁ :: f₂ :: fs, hok =>
      obtain ⟨l, hl, habs⟩ := except_map_ok _ _ _ hok
      injection habs with habs'
      subst habs'
      exact convert_zip_entries_names rename_to (pyLower out_format) 1 _ l hl

/-- Witness for the amended C6 statement: the universal part applied to
the concrete three-file batch. -/
theorem convert_archive_member_names_witness :
    ([("name_1.webp", (⟨10, 10, .RGB⟩ : Img)), ("name_2.webp", ⟨10, 10, .RGB⟩),
      ("other_3.webp", ⟨10, 10, .RGB⟩)].map Prod.fst) =
      List.zipWith (fun i f => convert_entry_name none (pyLower "webp") i f)
        (List.range' 1 3)
        [⟨"name.png", 10, some ⟨10, 10, .RGB⟩⟩, ⟨"name.jpg", 10, some ⟨10, 10, .RGB⟩⟩,
         ⟨"other.png", 10, some ⟨10, 10, .RGB⟩⟩] :=
  convert_archive_member_names.1
    [⟨"name.png", 10, some ⟨10, 10, .RGB⟩⟩, ⟨"name.jpg", 10, some ⟨10, 10, .RGB⟩⟩,
     ⟨"other.png", 10, some ⟨10, 10, .RGB⟩⟩] "webp" none
    [("name_1.webp", ⟨10, 10, .RGB⟩), ("name_2.webp", ⟨10, 10, .RGB⟩),
     ("other_3.webp", ⟨10, 10, .RGB⟩)] (by decide)
